import Mathlib

/-
Verification of the deployment tooling in src/bin/project.ts and
src/src/lib/github.ts (the versions the specification cites). The
definitions below are shallow embeddings of the corresponding TypeScript
functions: JS arrays become lists, JSON objects become structures with
optional fields, API responses are passed in as parameters, and throwing
code returns Except. Side-effecting orchestration code is embedded as the
sequence of operations it performs.
-/

set_option autoImplicit false

universe u

/-- JS Array.prototype.slice with start index 0: a negative end index counts
back from the end of the array and is clamped below at 0; a non-negative end
index is clamped above at the array length. -/
def jsSlice0 {α : Type u} (l : List α) (e : Int) : List α :=
  let n : Int := (l.length : Int)
  let stop : Int := if e < 0 then max (n + e) 0 else min e n
  l.take stop.toNat

/-- Insertion step of a stable sort: x is placed after every element it does
not strictly precede, matching the stable ordering required of JS
Array.prototype.sort since ES2019. -/
def jsInsert {α : Type u} (c : α → α → Int) (x : α) : List α → List α
  | [] => [x]
  | y :: ys => if 0 < c y x then x :: y :: ys else y :: jsInsert c x ys

/-- JS Array.prototype.sort modeled as a stable insertion sort over an integer
comparator (negative means the first argument sorts first). -/
def jsStableSort {α : Type u} (c : α → α → Int) (l : List α) : List α :=
  l.foldl (fun acc x => jsInsert c x acc) []

/-- A GitHub deployment record as the deployments API yields it; updated_at is
the timestamp ordering key, modeled as a number. -/
structure DeploymentRecord where
  id : Nat
  updated_at : Nat
deriving DecidableEq

/-- Nested trigger metadata of a Cloudflare page deployment; the branch key may
be absent. -/
structure TriggerMetadata where
  branch : Option String
deriving DecidableEq

/-- The deployment_trigger object of a page deployment; the metadata key may be
absent. -/
structure DeploymentTrigger where
  metadata : Option TriggerMetadata
deriving DecidableEq

/-- A Cloudflare page deployment record; the deployment_trigger field may be
absent entirely. created_on is the timestamp ordering key, modeled as a
number. -/
structure PageDeployment where
  id : Nat
  created_on : Nat
  deployment_trigger : Option DeploymentTrigger
deriving DecidableEq

/-- Comparator passed to sort in listGithubDeployments (src/bin/project.ts
lines 449-453, src/src/lib/github.ts lines 14-18): the callback computes the
comparison of the two dates but has no return statement, so its value is
undefined; the SortCompare step of the JS specification coerces undefined to
NaN and treats it as 0, leaving the relative order of every pair unchanged. -/
def brokenUpdatedAtComparator (x y : DeploymentRecord) : Int :=
  let _xDate := x.updated_at
  let _yDate := y.updated_at
  0

/-- Comparator passed to sort in listPagesDeployments (src/bin/project.ts
lines 560-564): same shape as brokenUpdatedAtComparator, over created_on, with
the same missing return statement. -/
def brokenCreatedOnComparator (x y : PageDeployment) : Int :=
  let _xDate := x.created_on
  let _yDate := y.created_on
  0

/-- Embeds listGithubDeployments (src/bin/project.ts lines 443-458 and
src/src/lib/github.ts lines 4-23): apiResponse is the JSON array the
deployments GET yields for the ref and environment query, none when the
request returned no content; the response is defaulted to the empty list and
sorted with the broken comparator. -/
def listGithubDeployments (apiResponse : Option (List DeploymentRecord)) :
    List DeploymentRecord :=
  jsStableSort brokenUpdatedAtComparator (apiResponse.getD [])

/-- The sort-order contract of section 4.2 of the specification: every record
is at least as recent, by updated_at, as the record after it. -/
def isDescendingByUpdatedAt : List DeploymentRecord → Bool
  | [] => true
  | [_] => true
  | a :: b :: rest =>
    decide (b.updated_at ≤ a.updated_at) && isDescendingByUpdatedAt (b :: rest)

/-- Excess selection of cleanGithubDeployments (src/bin/project.ts lines
515-540, src/src/lib/github.ts lines 85-112): when more than maxDeployments
records were listed, slice(0, length - maxDeployments) of the listed order,
otherwise nothing. The selection only inspects the length of the list, so it
is stated over an arbitrary element type. -/
def githubExtraDeployments {α : Type u} (allDeployments : List α)
    (maxDeployments : Nat) : List α :=
  if maxDeployments < allDeployments.length then
    jsSlice0 allDeployments ((allDeployments.length : Int) - (maxDeployments : Int))
  else []

/-- Excess selection of cleanPagesDeployments (src/bin/project.ts lines
571-598): the guard tests length > 0 rather than length > maxDeployments, and
the slice end length - maxDeployments may then be negative, in which case JS
slice counts it back from the end of the array. -/
def pagesExtraDeployments {α : Type u} (deployments : List α)
    (maxDeployments : Nat) : List α :=
  if 0 < deployments.length then
    jsSlice0 deployments ((deployments.length : Int) - (maxDeployments : Int))
  else []

/-- The API calls the GitHub prune loop makes for one record: the inactive
status POST and the record DELETE, identified by the deployment id. -/
inductive GithubCall where
  | postStatus : Nat → GithubCall
  | deleteDeployment : Nat → GithubCall
deriving DecidableEq

/-- Embeds the loop of cleanGithubDeployments (src/bin/project.ts lines
528-538): for each excess record, the inactive status POST is awaited and then
the DELETE; the loop body has no try/catch, so the first call that throws
(fails tells which calls do) aborts the remaining iterations. Returns the calls
issued, in order, and whether the loop ran to completion. -/
def githubPruneLoop (fails : GithubCall → Bool) :
    List DeploymentRecord → List GithubCall × Bool
  | [] => ([], true)
  | d :: ds =>
    if fails (GithubCall.postStatus d.id) then
      ([GithubCall.postStatus d.id], false)
    else if fails (GithubCall.deleteDeployment d.id) then
      ([GithubCall.postStatus d.id, GithubCall.deleteDeployment d.id], false)
    else
      let rest := githubPruneLoop fails ds
      (GithubCall.postStatus d.id :: GithubCall.deleteDeployment d.id :: rest.1, rest.2)

/-- The API call the pages prune loop makes for one record. -/
inductive PagesCall where
  | deleteDeployment : Nat → PagesCall
deriving DecidableEq

/-- Embeds the loop of cleanPagesDeployments (src/bin/project.ts lines
585-596): each DELETE is wrapped in try/catch, a failure is logged and
skipped, so every record is attempted no matter which calls fail; the fails
oracle therefore does not influence the issued calls. -/
def pagesPruneLoop (fails : Nat → Bool) : List PageDeployment → List PagesCall
  | [] => []
  | d :: ds => PagesCall.deleteDeployment d.id :: pagesPruneLoop fails ds

/-- JS Array.prototype.filter over a callback that may throw: elements are
visited left to right and the first exception aborts the whole call. -/
def filterExcept {α : Type u} (p : α → Except String Bool) :
    List α → Except String (List α)
  | [] => Except.ok []
  | x :: xs =>
    match p x with
    | Except.error e => Except.error e
    | Except.ok b =>
      match filterExcept p xs with
      | Except.error e => Except.error e
      | Except.ok rest => Except.ok (if b then x :: rest else rest)

/-- Embeds the filter callback of listPagesDeployments (src/bin/project.ts
lines 551-558). The callback evaluates, unconditionally and in order, the
membership tests for deployment_trigger on the record, for metadata on the
deployment_trigger value and for branch on the metadata value; applying the JS
in operator to undefined throws a TypeError, so a record without a
deployment_trigger field, or without nested metadata, makes the callback throw
before the guards can matter. When every level is present, branch is the
nested value when the branch key exists and null otherwise, and is compared
with strict equality against the environment argument. -/
def pagesFilterPred (environment : String) (x : PageDeployment) :
    Except String Bool :=
  match x.deployment_trigger with
  | none => Except.error "TypeError: in operator applied to undefined"
  | some trig =>
    match trig.metadata with
    | none => Except.error "TypeError: in operator applied to undefined"
    | some md => Except.ok (md.branch == some environment)

/-- Embeds listPagesDeployments (src/bin/project.ts lines 542-569) on the call
path the program exercises, where environment is a branch name (every caller
passes one, so the null-environment branch is dead): the result array of the
deployments GET, defaulted to empty when the request yielded no content, is
filtered by pagesFilterPred and sorted with the broken created_on
comparator. -/
def listPagesDeployments (apiResponse : Option (List PageDeployment))
    (environment : String) : Except String (List PageDeployment) :=
  let result := apiResponse.getD []
  match filterExcept (pagesFilterPred environment) result with
  | Except.error e => Except.error e
  | Except.ok environmentDeployments =>
    Except.ok (jsStableSort brokenCreatedOnComparator environmentDeployments)

/-- Result of initGithubDeployment: the id it returns, whether a creation POST
was issued, and the record list for the queried environment after the call. -/
structure InitGithubResult where
  id : Nat
  posted : Bool
  state : List DeploymentRecord
deriving DecidableEq

/-- Embeds initGithubDeployment (src/bin/project.ts lines 460-484 and
src/src/lib/github.ts lines 25-48): the deployments GET for the computed ref
and environment query yields state; when the listed deployments are non-empty
the id of the first one is returned and no POST is issued, otherwise a
creation POST adds newRecord and its id is returned. -/
def initGithubDeployment (state : List DeploymentRecord)
    (newRecord : DeploymentRecord) : InitGithubResult :=
  let deployments := listGithubDeployments (some state)
  match deployments with
  | d :: _ => ⟨d.id, false, state⟩
  | [] => ⟨newRecord.id, true, state ++ [newRecord]⟩

/-- One env_vars entry of a pages deployment configuration; varType is the
secret_text tag for secrets and absent for plain variables. -/
structure EnvVarValue where
  value : String
  varType : Option String
deriving DecidableEq

/-- A name and value pair as resolved from the process environment. -/
structure NamedValue where
  name : String
  value : String
deriving DecidableEq

/-- One section of deployment_configs as addPageVariables writes it. -/
structure ConfigSection where
  compatibility_date : String
  compatibility_flags : List String
  env_vars : List (String × EnvVarValue)
deriving DecidableEq

/-- The deployment_configs object: a production section and a preview section,
each possibly absent. -/
structure DeploymentConfigs where
  production : Option ConfigSection
  preview : Option ConfigSection
deriving DecidableEq

/-- The body of the PATCH request addPageVariables sends; its only key is
deployment_configs. -/
structure PatchBody where
  deployment_configs : DeploymentConfigs
deriving DecidableEq

/-- JS object update at one key: a later assignment of the same key overwrites
the earlier value, other entries keep their order. -/
def objInsert {α : Type u} (k : String) (v : α) :
    List (String × α) → List (String × α)
  | [] => [(k, v)]
  | kv :: rest => if kv.1 = k then (k, v) :: rest else kv :: objInsert k v rest

/-- JS object spread of b into a: the entries of b are written over a from left
to right, later keys winning. -/
def objSpread {α : Type u} (a b : List (String × α)) : List (String × α) :=
  b.foldl (fun acc kv => objInsert kv.1 kv.2 acc) a

/-- varMap from addPageVariables (src/bin/project.ts lines 609-613): each
variable becomes a singleton object and the singletons are spread together. -/
def varMap (vars : List NamedValue) : List (String × EnvVarValue) :=
  vars.foldl (fun a x => objInsert x.name ⟨x.value, none⟩ a) []

/-- secretMap from addPageVariables (src/bin/project.ts lines 614-618): like
varMap but every value is tagged with the secret_text type. -/
def secretMap (vars : List NamedValue) : List (String × EnvVarValue) :=
  vars.foldl (fun a x => objInsert x.name ⟨x.value, some "secret_text"⟩ a) []

/-- The top-level JS spread of baseData and patchData in addPageVariables:
both objects carry the single key deployment_configs, and a shallow spread
lets the later object win at that key, so the value read into baseData is
discarded wholesale. -/
def jsSpreadPatchBody (base patch : PatchBody) : PatchBody :=
  let _unusedBase := base
  { deployment_configs := patch.deployment_configs }

/-- Embeds addPageVariables (src/bin/project.ts lines 600-635) as the body of
the PATCH it sends. pageConfigs is the deployment_configs object the GET on
the project returned; the patched section is production exactly when
environment equals head; the new section holds the fixed compatibility fields
and the spread of varMap over variables and secretMap over secrets. -/
def addPageVariablesPatchBody (pageConfigs : DeploymentConfigs)
    (environment head : String) (variableList secrets : List NamedValue) :
    PatchBody :=
  let configSectionName := if environment = head then "production" else "preview"
  let baseData : PatchBody := ⟨pageConfigs⟩
  let newSection : ConfigSection :=
    ⟨"2022-01-01", ["url_standard"], objSpread (varMap variableList) (secretMap secrets)⟩
  let patchConfigs : DeploymentConfigs :=
    if configSectionName = "production" then ⟨some newSection, none⟩
    else ⟨none, some newSection⟩
  let patchData : PatchBody := ⟨patchConfigs⟩
  jsSpreadPatchBody baseData patchData

/-- The operations the clean command handler performs, with their thresholds. -/
inductive CleanAction where
  | cleanGithub : String → String → Nat → CleanAction
  | cleanPages : String → String → Nat → CleanAction
  | deleteEnvironment : String → String → CleanAction
deriving DecidableEq

/-- Embeds clean (src/bin/project.ts lines 637-656) as the sequence of
operations it performs: routine prunes of both registries at the configured
threshold, then, only when the environment differs from the head branch,
zero-threshold prunes of both registries followed by the DELETE of the GitHub
environment resource. -/
def clean (repository name environment head : String) (maxDeployments : Nat) :
    List CleanAction :=
  CleanAction.cleanGithub repository environment maxDeployments ::
  CleanAction.cleanPages name environment maxDeployments ::
  (if environment ≠ head then
    [CleanAction.cleanGithub repository environment 0,
     CleanAction.cleanPages name environment 0,
     CleanAction.deleteEnvironment repository environment]
  else [])

/-- The externally visible events of the deploy command action: a network
request being initiated, the process exiting with a status code, the build
step, and the deploy orchestration itself. -/
inductive DeployEvent where
  | network : String → DeployEvent
  | fatalExit : Nat → DeployEvent
  | runBuild : DeployEvent
  | orchestrate : DeployEvent
deriving DecidableEq

/-- JS falsiness of a process environment lookup: the negation check in
checkSecrets and checkEnvVars is true when the variable is unset or set to the
empty string. -/
def envUnset (env : String → Option String) (name : String) : Bool :=
  match env name with
  | none => true
  | some v => v == ""

/-- Embeds the deploy action of main (src/bin/project.ts lines 760-786)
together with checkRepository, checkSecrets and checkEnvVars (lines 673-720),
assuming the three credential variables are set. The action first invokes
checkRepository, whose body runs synchronously up to its first await and
thereby initiates the GET on the repository before suspending; checkSecrets
then runs synchronously and calls process.exit(1) at the first unset secret,
checkEnvVars likewise for variables; only when every named value is set does
the orchestration proceed with the remaining validation requests, the build
and the deploy call. -/
def deployAction (env : String → Option String)
    (repository head environment : String) (secrets variableList : List String) :
    List DeployEvent :=
  DeployEvent.network ("repos/" ++ repository) ::
  (if secrets.any (envUnset env) then [DeployEvent.fatalExit 1]
   else if variableList.any (envUnset env) then [DeployEvent.fatalExit 1]
   else
    [DeployEvent.network ("repos/" ++ repository ++ "/branches/" ++ head),
     DeployEvent.network ("repos/" ++ repository ++ "/branches/" ++ environment),
     DeployEvent.runBuild,
     DeployEvent.orchestrate])

/- Supporting lemmas. -/

theorem jsInsert_zero {α : Type u} (c : α → α → Int) (hc : ∀ x y, c x y = 0)
    (x : α) (l : List α) : jsInsert c x l = l ++ [x] := by
  induction l with
  | nil => rfl
  | cons y ys ih => simp [jsInsert, hc, ih]

theorem jsStableSort_zero {α : Type u} (c : α → α → Int)
    (hc : ∀ x y, c x y = 0) (l : List α) : jsStableSort c l = l := by
  have key : ∀ (l acc : List α),
      l.foldl (fun a x => jsInsert c x a) acc = acc ++ l := by
    intro l
    induction l with
    | nil => intro acc; simp
    | cons x xs ih =>
      intro acc
      rw [List.foldl_cons, jsInsert_zero c hc, ih]
      simp
  simpa [jsStableSort] using key l []

theorem listGithubDeployments_getD (apiResponse : Option (List DeploymentRecord)) :
    listGithubDeployments apiResponse = apiResponse.getD [] :=
  jsStableSort_zero _ (fun _ _ => rfl) _

theorem initGithubDeployment_cons (d : DeploymentRecord)
    (rest : List DeploymentRecord) (newRecord : DeploymentRecord) :
    initGithubDeployment (d :: rest) newRecord = ⟨d.id, false, d :: rest⟩ := by
  have h : listGithubDeployments (some (d :: rest)) = d :: rest :=
    listGithubDeployments_getD _
  simp [initGithubDeployment, h]

/- Claim theorems. -/

/-- Claim C1: the retention pruner is claimed to select, from a
recency-descending list of N records with threshold M < N, exactly the records
at positions M to N, each strictly older than every retained record. The code
instead computes slice(0, N - M): on the descending two-record list below with
threshold 1 it selects the record at position 0 with the larger timestamp,
the newest record, and not the position-1 record the claim designates. -/
theorem cleanGithubDeployments_selects_newest_cbug :
    isDescendingByUpdatedAt [⟨1, 20⟩, ⟨2, 10⟩] = true ∧
    githubExtraDeployments ([⟨1, 20⟩, ⟨2, 10⟩] : List DeploymentRecord) 1 = [⟨1, 20⟩] ∧
    ([⟨1, 20⟩, ⟨2, 10⟩] : List DeploymentRecord).drop 1 = [⟨2, 10⟩] ∧
    githubExtraDeployments ([⟨1, 20⟩, ⟨2, 10⟩] : List DeploymentRecord) 1 ≠
      ([⟨1, 20⟩, ⟨2, 10⟩] : List DeploymentRecord).drop 1 := by
  decide

/-- Claim C2: the listing operations are claimed to return records sorted by
descending recency for every input list the API yields. The sort comparator
never returns a value, so the sort is a no-op: on an ascending two-record
response, listGithubDeployments returns it unchanged and not descending, and
listPagesDeployments likewise returns an ascending filtered response in input
order. -/
theorem listDeployments_sort_noop_cbug :
    listGithubDeployments (some [⟨1, 10⟩, ⟨2, 20⟩]) = [⟨1, 10⟩, ⟨2, 20⟩] ∧
    isDescendingByUpdatedAt (listGithubDeployments (some [⟨1, 10⟩, ⟨2, 20⟩])) = false ∧
    listPagesDeployments
        (some [⟨1, 10, some ⟨some ⟨some "b"⟩⟩⟩, ⟨2, 20, some ⟨some ⟨some "b"⟩⟩⟩]) "b" =
      Except.ok [⟨1, 10, some ⟨some ⟨some "b"⟩⟩⟩, ⟨2, 20, some ⟨some ⟨some "b"⟩⟩⟩] :=
  ⟨by decide, by decide, rfl⟩

/-- Claim C3: the two pruners are claimed to implement the same pure selection
function of list and threshold. On a list of three records with threshold 5
the GitHub selection is empty (guard length greater than maxDeployments) while
the pages selection (guard length greater than 0, slice end 3 - 5 = -2 counted
back from the end) picks the first record, so the functions differ. -/
theorem pruner_selection_differs_cbug :
    githubExtraDeployments ([⟨1, 30⟩, ⟨2, 20⟩, ⟨3, 10⟩] : List DeploymentRecord) 5 = [] ∧
    pagesExtraDeployments ([⟨1, 30⟩, ⟨2, 20⟩, ⟨3, 10⟩] : List DeploymentRecord) 5 = [⟨1, 30⟩] ∧
    githubExtraDeployments ([⟨1, 30⟩, ⟨2, 20⟩, ⟨3, 10⟩] : List DeploymentRecord) 5 ≠
      pagesExtraDeployments ([⟨1, 30⟩, ⟨2, 20⟩, ⟨3, 10⟩] : List DeploymentRecord) 5 := by
  decide

/-- Claim C4: pruning a list of length at most maxDeployments is claimed to be
a no-op for both pruners. The pages pruner violates this: on three records
with threshold 4 the slice end is -1, JS counts it back from the end of the
array, and the first two records are selected for deletion. -/
theorem pagesPrune_below_threshold_cbug :
    ([⟨1, 30⟩, ⟨2, 20⟩, ⟨3, 10⟩] : List DeploymentRecord).length ≤ 4 ∧
    pagesExtraDeployments ([⟨1, 30⟩, ⟨2, 20⟩, ⟨3, 10⟩] : List DeploymentRecord) 4 =
      [⟨1, 30⟩, ⟨2, 20⟩] := by
  decide

/-- Claim C5: patching the env_vars of one section is claimed to leave the
sibling section of the current configuration unchanged in the PATCH body. The
top-level spread is shallow and patchData also carries the deployment_configs
key, so the sections read into baseData are discarded: patching preview below
produces a body whose production section is absent even though the current
configuration has one. -/
theorem addPageVariables_drops_sibling_cbug :
    ((⟨some ⟨"2022-01-01", ["url_standard"], [("A", ⟨"1", none⟩)]⟩,
       some ⟨"2022-01-01", ["url_standard"], [("B", ⟨"2", none⟩)]⟩⟩ :
        DeploymentConfigs).production).isSome = true ∧
    (addPageVariablesPatchBody
        ⟨some ⟨"2022-01-01", ["url_standard"], [("A", ⟨"1", none⟩)]⟩,
         some ⟨"2022-01-01", ["url_standard"], [("B", ⟨"2", none⟩)]⟩⟩
        "feature" "master" [⟨"X", "3"⟩] []).deployment_configs.production = none :=
  ⟨rfl, rfl⟩

/-- Claim C6, counterexample: the per-record failure tolerance is claimed for
both registries, but the GitHub prune loop has no try/catch: when the inactive
status POST for the first record fails, the loop stops, the second record is
never attempted and the loop reports that it did not complete. -/
theorem githubPruneLoop_aborts_cex :
    (githubPruneLoop (fun c => c == GithubCall.postStatus 1) [⟨1, 20⟩, ⟨2, 10⟩]).1 =
      [GithubCall.postStatus 1] ∧
    GithubCall.deleteDeployment 2 ∉
      (githubPruneLoop (fun c => c == GithubCall.postStatus 1) [⟨1, 20⟩, ⟨2, 10⟩]).1 ∧
    (githubPruneLoop (fun c => c == GithubCall.postStatus 1) [⟨1, 20⟩, ⟨2, 10⟩]).2 = false := by
  decide

/-- Claim C6, amended: per-record failure tolerance holds only in the pages
pruner, whose try/catch makes the loop attempt the DELETE of every record no
matter which calls fail; in the GitHub pruner a failing status POST on the
first record aborts the loop immediately with only that call issued. -/
theorem pruneLoop_per_record_tolerance_amended (pfails : Nat → Bool)
    (l : List PageDeployment) (gfails : GithubCall → Bool)
    (d : DeploymentRecord) (ds : List DeploymentRecord)
    (h : gfails (GithubCall.postStatus d.id) = true) :
    pagesPruneLoop pfails l = l.map (fun x => PagesCall.deleteDeployment x.id) ∧
    githubPruneLoop gfails (d :: ds) = ([GithubCall.postStatus d.id], false) := by
  constructor
  · induction l with
    | nil => rfl
    | cons x xs ih => simp [pagesPruneLoop, ih]
  · simp [githubPruneLoop, h]

/-- Claim C6, witness for the amended statement at concrete inputs. -/
theorem pruneLoop_per_record_tolerance_witness :
    pagesPruneLoop (fun _ => true) [⟨1, 10, none⟩, ⟨2, 20, none⟩] =
      [PagesCall.deleteDeployment 1, PagesCall.deleteDeployment 2] ∧
    githubPruneLoop (fun c => c == GithubCall.postStatus 3) [⟨3, 30⟩] =
      ([GithubCall.postStatus 3], false) := by
  have h := pruneLoop_per_record_tolerance_amended (fun _ => true)
    [⟨1, 10, none⟩, ⟨2, 20, none⟩] (fun c => c == GithubCall.postStatus 3)
    ⟨3, 30⟩ [] (by decide)
  simpa using h

/-- Claim C7: when the environment equals the head branch, clean performs
exactly the two routine prunes at the configured threshold and neither the
zero-threshold wipes nor the environment DELETE; when it differs, clean
performs the routine prunes, then both prunes at threshold 0, then deletes the
environment resource. -/
theorem clean_head_vs_preview (repository name environment head : String)
    (m : Nat) :
    (environment = head →
      clean repository name environment head m =
        [CleanAction.cleanGithub repository environment m,
         CleanAction.cleanPages name environment m]) ∧
    (environment ≠ head →
      clean repository name environment head m =
        [CleanAction.cleanGithub repository environment m,
         CleanAction.cleanPages name environment m,
         CleanAction.cleanGithub repository environment 0,
         CleanAction.cleanPages name environment 0,
         CleanAction.deleteEnvironment repository environment]) := by
  constructor
  · intro he; simp [clean, he]
  · intro hne; simp [clean, hne]

/-- Claim C7, witness: both cases of the theorem at concrete inputs. -/
theorem clean_head_vs_preview_witness :
    clean "o/r" "p" "master" "master" 5 =
      [CleanAction.cleanGithub "o/r" "master" 5,
       CleanAction.cleanPages "p" "master" 5] ∧
    clean "o/r" "p" "feature" "master" 5 =
      [CleanAction.cleanGithub "o/r" "feature" 5,
       CleanAction.cleanPages "p" "feature" 5,
       CleanAction.cleanGithub "o/r" "feature" 0,
       CleanAction.cleanPages "p" "feature" 0,
       CleanAction.deleteEnvironment "o/r" "feature"] :=
  ⟨(clean_head_vs_preview "o/r" "p" "master" "master" 5).1 rfl,
   (clean_head_vs_preview "o/r" "p" "feature" "master" 5).2 (by decide)⟩

/-- Claim C8, counterexample: with the secret API_KEY unset the deploy action
does exit with code 1, but the repository validation GET is initiated before
the secret check runs, so a network call does precede the failure. -/
theorem deployAction_network_before_exit_cex :
    deployAction (fun _ => none) "o/r" "master" "feature" ["API_KEY"] [] =
      [DeployEvent.network "repos/o/r", DeployEvent.fatalExit 1] ∧
    DeployEvent.network "repos/o/r" ∈
      deployAction (fun _ => none) "o/r" "master" "feature" ["API_KEY"] [] := by
  have h : deployAction (fun _ => none) "o/r" "master" "feature" ["API_KEY"] [] =
      [DeployEvent.network "repos/o/r", DeployEvent.fatalExit 1] := by decide
  rw [h]
  exact ⟨rfl, List.mem_cons_self _ _⟩

/-- Claim C8, amended: when a named secret or variable is unset, the deploy
action exits with code 1 before any orchestration, so neither the build step
nor the deploy call appears in its event sequence; however the repository
validation request initiated by checkRepository precedes the failure, so the
sequence is exactly that one network event followed by the fatal exit. -/
theorem deployAction_failfast_amended (env : String → Option String)
    (repository head environment : String) (secrets variableList : List String)
    (h : (secrets.any (envUnset env) || variableList.any (envUnset env)) = true) :
    deployAction env repository head environment secrets variableList =
      [DeployEvent.network ("repos/" ++ repository), DeployEvent.fatalExit 1] ∧
    DeployEvent.runBuild ∉
      deployAction env repository head environment secrets variableList ∧
    DeployEvent.orchestrate ∉
      deployAction env repository head environment secrets variableList := by
  have heq : deployAction env repository head environment secrets variableList =
      [DeployEvent.network ("repos/" ++ repository), DeployEvent.fatalExit 1] := by
    rcases Bool.or_eq_true_iff.mp h with hs | hv
    · simp [deployAction, hs]
    · by_cases hs2 : secrets.any (envUnset env) = true
      · simp [deployAction, hs2]
      · have hs3 : secrets.any (envUnset env) = false := by
          simpa using hs2
        simp [deployAction, hs3, hv]
  refine ⟨heq, ?_, ?_⟩ <;> rw [heq] <;> simp

/-- Claim C8, witness for the amended statement at concrete inputs. -/
theorem deployAction_failfast_witness :
    deployAction (fun _ => none) "o/r" "master" "feature" ["API_KEY"] [] =
      [DeployEvent.network ("repos/" ++ "o/r"), DeployEvent.fatalExit 1] ∧
    DeployEvent.runBuild ∉
      deployAction (fun _ => none) "o/r" "master" "feature" ["API_KEY"] [] ∧
    DeployEvent.orchestrate ∉
      deployAction (fun _ => none) "o/r" "master" "feature" ["API_KEY"] [] :=
  deployAction_failfast_amended (fun _ => none) "o/r" "master" "feature"
    ["API_KEY"] [] (by decide)

/-- Claim C9: when at least one deployment record exists for the queried
environment, initGithubDeployment returns the id of the first listed record,
issues no creation POST and leaves the record list unchanged, so a second call
returns the same id and still creates nothing. -/
theorem initGithubDeployment_dedup (d : DeploymentRecord)
    (rest : List DeploymentRecord) (n1 n2 : DeploymentRecord) :
    (initGithubDeployment (d :: rest) n1).id = d.id ∧
    (initGithubDeployment (d :: rest) n1).posted = false ∧
    (initGithubDeployment (d :: rest) n1).state = d :: rest ∧
    (initGithubDeployment ((initGithubDeployment (d :: rest) n1).state) n2).id = d.id ∧
    (initGithubDeployment ((initGithubDeployment (d :: rest) n1).state) n2).posted = false := by
  simp [initGithubDeployment_cons]

/-- Claim C10: a page deployment record whose deployment_trigger field is
absent is claimed to be treated as having a null branch, with the listing
completing. The filter callback instead applies the JS in operator to the
undefined deployment_trigger value, which throws a TypeError, and the listing
fails. -/
theorem listPagesDeployments_missing_trigger_cbug :
    listPagesDeployments (some [⟨7, 100, none⟩]) "feature" =
      Except.error "TypeError: in operator applied to undefined" := rfl
